import Mathlib

/-!
Verification development for the `zecli` light-wallet CLI.

The definitions below are a shallow embedding of the Rust sources:
`src/balance.rs` (account selection, balance rendering, fiat conversion),
`src/config.rs` (wallet config creation), and `src/init.rs` / `src/main.rs`
(the `init` run: chain-tip fetch, identity file, mnemonic handling, birthday
resolution, config write, account provisioning).  Machine integers are
modelled as `Nat` (with explicit range conditions where overflow matters),
decimals as `ℚ`, fallible calls as `Except`/`Option`, and the filesystem as
an explicit state threaded through the functions that touch it.
-/

namespace Zecli

/-! ## Balance reporting (`src/balance.rs`) -/

/-- Classification of an IEEE-754 double as produced by the progress-percent
computations in `BalanceOptions::run`.  The Rust code computes
`(n as f64) * 100f64 / (d as f64)`; for `d = 0` the IEEE result is `NaN`
when `n = 0` and `+∞` when `n > 0`, and for `d > 0` it is a finite value,
modelled here by the exact rational it approximates. -/
inductive F64Class where
  | nan : F64Class
  | posInf : F64Class
  | finite (q : ℚ) : F64Class
deriving DecidableEq

/-- Embeds `(*progress.numerator() as f64) * 100f64 / (*progress.denominator() as f64)`
from `src/balance.rs` lines 119-120 (and the analogous scan computation at
lines 113-114): IEEE division classification over the fraction `n/d`. -/
def recoveredPercent (numerator denominator : Nat) : F64Class :=
  if denominator = 0 then
    if numerator = 0 then F64Class.nan else F64Class.posInf
  else
    F64Class.finite ((numerator * 100 : ℚ) / (denominator : ℚ))

/-- The data rendered on the `Recovered:` line of the balance report:
the percent value (formatted `{:0.3}%` in the source) and the raw
fraction (formatted `n/d`). -/
structure RecoveredLine where
  percent : F64Class
  fracNum : Nat
  fracDen : Nat
deriving DecidableEq

/-- Embeds `src/balance.rs` lines 118-134: when the wallet summary carries a
recovery-progress fraction `(n, d)` the code always prints
`Recovered: {percent}% = {n}/{d}` with `percent` computed by f64 division;
when the fraction is absent no line is printed. -/
def renderRecovered (recovery : Option (Nat × Nat)) : Option RecoveredLine :=
  recovery.map (fun nd => ⟨recoveredPercent nd.1 nd.2, nd.1, nd.2⟩)

/-- Model of `iso_currency::Currency`: an ISO-4217 code.  Equality of
currencies is equality of codes, which is what `currency == Currency::USD`
tests in the source. -/
structure Currency where
  code : String
deriving DecidableEq

/-- The `Currency::USD` constant. -/
def Currency.usd : Currency := ⟨"USD"⟩

/-- Embeds the `ValuePrinter` enum of `src/balance.rs` lines 163-166.
The rate is the exact decimal fetched from the rate source. -/
inductive ValuePrinter where
  | withConversion (currency : Currency) (rate : ℚ) : ValuePrinter
  | zecOnly : ValuePrinter
deriving DecidableEq

/-- Outcome of `tor.get_latest_zec_to_usd_rate(&exchanges).await`:
either a decimal USD/ZEC rate or a transport failure. -/
inductive FetchResult where
  | ok (rate : ℚ) : FetchResult
  | err : FetchResult
deriving DecidableEq

/-- Embeds `ValuePrinter::with_exchange_rate` (`src/balance.rs` lines 169-184).
The USD/ZEC rate fetch is performed unconditionally and its failure is
propagated by `?` before the requested currency is examined; only then does
the code branch on `currency == Currency::USD`.  The returned `Bool` records
whether the non-USD warning was logged. -/
def with_exchange_rate (currency : Currency) (fetchUsdZec : FetchResult) :
    Except Unit (ValuePrinter × Bool) :=
  match fetchUsdZec with
  | FetchResult.err => Except.error ()
  | FetchResult.ok usd_zec =>
    if currency = Currency.usd then
      Except.ok (ValuePrinter.withConversion currency usd_zec, false)
    else
      Except.ok (ValuePrinter.zecOnly, true)

/-- `zcash_protocol::value::COIN`: zatoshis (minor units) per ZEC. -/
def COIN : Nat := 100000000

/-- Modelled from the spec: the external decimal crate's `{:.2}` display
formatting is not part of this repository; the spec fixes that the fiat
amount is "rounded to 2 decimal places for display".  Rounding to the
nearest hundredth (ties upward). -/
def roundDp2 (q : ℚ) : ℚ := (round (q * 100) : ℚ) / 100

/-- Embeds the fiat component of `ValuePrinter::format` (`src/balance.rs`
lines 186-199): with a conversion in effect the parenthesized fiat amount is
`rate * Decimal::from(value) / Decimal::from(COIN)` computed in exact decimal
arithmetic and displayed with 2 decimal places; without one, no fiat amount
is shown. -/
def ValuePrinter.formatFiat : ValuePrinter → Nat → Option ℚ
  | ValuePrinter.withConversion _ rate, value =>
      some (roundDp2 (rate * (value : ℚ) / (COIN : ℚ)))
  | ValuePrinter.zecOnly, _ => none

/-- Formalisation of the spec's conversion formula, written from the spec's
words for comparison with the code: `fiat = round(R * A / U, 2)` for rate
`R`, amount `A` minor units, and `U` minor units per whole unit. -/
def specFiatAmount (rateR amountA unitsU : ℚ) : ℚ :=
  roundDp2 (rateR * amountA / unitsU)

/-! ### Account selection (`src/balance.rs` lines 28-51) -/

/-- Model of `AccountUuid`. -/
abbrev Uuid := Nat

/-- The wallet database as read by `select_account`: the association of
account identifiers to accounts, as exposed by `get_account_ids` /
`get_account`.  `α` is the engine's account type. -/
structure Db (α : Type) where
  accounts : List (Uuid × α)

/-- Embeds `db_data.get_account_ids()`. -/
def get_account_ids {α : Type} (db : Db α) : List Uuid :=
  db.accounts.map Prod.fst

/-- First-match lookup in an association list; used to model keyed reads
(accounts by identifier, files by path). -/
def lookupAssoc {κ ν : Type} [DecidableEq κ] (l : List (κ × ν)) (k : κ) :
    Option ν :=
  match l with
  | [] => none
  | e :: t => if e.1 = k then some e.2 else lookupAssoc t k

/-- Embeds `db_data.get_account(account_id)`: lookup by identifier
(first match). -/
def get_account {α : Type} (db : Db α) (id : Uuid) : Option α :=
  lookupAssoc db.accounts id

/-- The failures of `select_account`, named as in the spec
(`src/balance.rs` produces them as `anyhow` messages). -/
inductive SelectError where
  | noAccounts : SelectError
  | ambiguousAccount : SelectError
  | accountNotFound (id : Uuid) : SelectError
deriving DecidableEq

/-- Embeds `select_account` (`src/balance.rs` lines 28-51): resolve the
account identifier (explicit, or sole account, failing on zero or several),
then look the account up, failing with `accountNotFound` when absent.
The function only reads `db`; it performs no update. -/
def select_account {α : Type} (db : Db α) (account_uuid : Option Uuid) :
    Except SelectError α :=
  let idResult : Except SelectError Uuid :=
    match account_uuid with
    | some uuid => Except.ok uuid
    | none =>
      match get_account_ids db with
      | [] => Except.error SelectError.noAccounts
      | [account_id] => Except.ok account_id
      | _ => Except.error SelectError.ambiguousAccount
  match idResult with
  | Except.error e => Except.error e
  | Except.ok account_id =>
    match get_account db account_id with
    | some a => Except.ok a
    | none => Except.error (SelectError.accountNotFound account_id)

/-! ## Wallet config creation (`src/config.rs`) -/

/-- A filesystem path, as a list of components. -/
abbrev Path := List String

/-- The filesystem state threaded through the effectful functions:
the set of existing directories and the existing files with their
contents (an association list; paths are unique once created). -/
structure Fs where
  dirs : Finset Path
  files : List (Path × String)
deriving DecidableEq

/-- Contents of the file at `p`, if it exists. -/
def lookupFile (fs : Fs) (p : Path) : Option String :=
  lookupAssoc fs.files p

/-- The non-empty initial segments of a path: the directories that
`fs::create_dir_all` brings into existence (it creates every missing
ancestor). -/
def ancestors (p : Path) : List Path :=
  (List.range p.length).map (fun i => p.take (i + 1))

/-- Embeds `fs::create_dir_all(wallet_dir)`: recursively ensures the
directory and all its ancestors exist; files are untouched. -/
def create_dir_all (p : Path) (fs : Fs) : Fs :=
  { fs with dirs := fs.dirs ∪ (ancestors p).toFinset }

/-- The config-creation failure: `OpenOptions::new().create_new(true)` fails
when the file already exists (the spec's `ConfigAlreadyExists`). -/
inductive ConfigError where
  | configAlreadyExists : ConfigError
deriving DecidableEq

/-- Embeds `fs::OpenOptions::new().create_new(true).write(true).open(p)`
followed by the single `write!`: exclusive creation of a file with the
given contents, failing (and leaving the filesystem unchanged) when the
path already exists. -/
def create_new (p : Path) (contents : String) (fs : Fs) :
    Fs × Except ConfigError Unit :=
  if (lookupFile fs p).isSome then
    (fs, Except.error ConfigError.configAlreadyExists)
  else
    ({ fs with files := fs.files ++ [(p, contents)] }, Except.ok ())

/-- `KEYS_FILE` from `src/config.rs`. -/
def KEYS_FILE : String := "keys.toml"

/-- Modelled from the spec: `DEFAULT_WALLET_DIR` lives in `src/data.rs`,
which is not under `src/`; the spec fixes only that a default wallet
directory exists.  Its concrete value is irrelevant to the claims. -/
def DEFAULT_WALLET_DIR : Path := ["zec-wallet"]

/-- The `ConfigEncoding` struct of `src/config.rs`. -/
structure ConfigEncoding where
  mnemonic : Option String
  network : Option String
  birthday : Option Nat
deriving DecidableEq

/-- Embeds `toml::to_string(&config)`: a flat key/value text rendering of
the three optional fields (the exact quoting of the external crate is
immaterial to the claims; only the produced string's identity is used). -/
def encodeConfig (c : ConfigEncoding) : String :=
  (match c.mnemonic with
   | some m => "mnemonic = " ++ m ++ "\n"
   | none => "") ++
  (match c.network with
   | some n => "network = " ++ n ++ "\n"
   | none => "") ++
  (match c.birthday with
   | some b => "birthday = " ++ toString b ++ "\n"
   | none => "")

/-- Embeds `init_wallet_config` (`src/config.rs` lines 31-63): resolve the
wallet directory (defaulting), create it recursively, then create the
`keys.toml` file with exclusive-create semantics and write the serialized
config to it. -/
def init_wallet_config (wallet_dir : Option Path) (mnemonic : Option String)
    (birthday : Nat) (networkName : String) (fs : Fs) :
    Fs × Except ConfigError Unit :=
  let wd := wallet_dir.getD DEFAULT_WALLET_DIR
  let fs1 := create_dir_all wd fs
  let config : ConfigEncoding :=
    { mnemonic := mnemonic, network := some networkName,
      birthday := some birthday }
  create_new (wd ++ [KEYS_FILE]) (encodeConfig config) fs1

/-- The path of the config file written for a given wallet directory
option. -/
def configPath (wallet_dir : Option Path) : Path :=
  wallet_dir.getD DEFAULT_WALLET_DIR ++ [KEYS_FILE]

/-! ## Wallet initialisation (`src/init.rs`, `src/main.rs`) -/

/-- The `bip0039::Count` word counts; the source requests
`Count::Words24`. -/
inductive Count where
  | words12 | words15 | words18 | words21 | words24
deriving DecidableEq

/-- Words encoded by each `Count`. -/
def Count.toNat : Count → Nat
  | Count.words12 => 12
  | Count.words15 => 15
  | Count.words18 => 18
  | Count.words21 => 21
  | Count.words24 => 24

/-- Model of `bip0039::Mnemonic`: its word sequence. -/
structure Mnemonic where
  words : List String
deriving DecidableEq

/-- Interface of the external `bip0039` crate as used by `init`:
generation with a requested word count (the entropy source is folded into
the function) and parsing of a phrase against the wordlist and checksum
(`none` on mismatch).  `generate_len` is the crate's contract that a
generated mnemonic has the requested number of words. -/
structure Bip39 where
  generate : Count → Mnemonic
  fromPhrase : String → Option Mnemonic
  generate_len : ∀ c, (generate c).words.length = c.toNat

/-- The failures of the `init` run that the claims distinguish. -/
inductive InitError where
  | invalidMnemonic : InitError
  | invalidTreeState : InitError
  | network : InitError
  | configAlreadyExists : InitError
  | engine : InitError
deriving DecidableEq

/-- Embeds `src/init.rs` lines 113-124: prompt response handling.  A
non-empty phrase is parsed (`Mnemonic::from_phrase`, failing with
`InvalidMnemonic` on wordlist/checksum mismatch) and pairs with
`recover_until = Some(chain_tip)`; an empty phrase yields a freshly
generated 24-word mnemonic with no recover-until height. -/
def mnemonicAndRecoverUntil (lib : Bip39) (phrase : String) (chain_tip : Nat) :
    Except InitError (Mnemonic × Option Nat) :=
  if phrase ≠ "" then
    match lib.fromPhrase phrase with
    | some m => Except.ok (m, some chain_tip)
    | none => Except.error InitError.invalidMnemonic
  else
    Except.ok (lib.generate Count.words24, none)

/-- Embeds the request height of `get_wallet_birthday` (`src/init.rs`
lines 178-181, identically `src/main.rs` lines 195-198):
`u64::from(birthday_height).saturating_sub(1)`.  `Nat` subtraction is
truncated, which coincides with `saturating_sub` here. -/
def treeStateRequestHeight (birthday_height : Nat) : Nat :=
  birthday_height - 1

/-- Embeds `opts.birthday.unwrap_or(chain_tip.saturating_sub(100))`
(`src/init.rs` lines 127-131, identically `src/main.rs` lines 147-151):
the effective birthday height. -/
def effectiveBirthdayHeight (explicit : Option Nat) (chain_tip : Nat) : Nat :=
  explicit.getD (chain_tip - 100)

/-- The remote service's tree-state response: the height it describes and
whether `AccountBirthday::from_treestate` accepts it as a valid
checkpoint. -/
structure TreeState where
  height : Nat
  valid : Bool
deriving DecidableEq

/-- Model of `zcash_client_backend`'s `AccountBirthday`: the checkpoint
height and the optional recover-until height. -/
structure AccountBirthday where
  height : Nat
  recoverUntil : Option Nat
deriving DecidableEq

/-- Embeds `AccountBirthday::from_treestate(treestate, recover_until)`
mapped through `error::Error::from`: a valid tree state at height `h`
yields the checkpoint for birthday `h + 1` carrying `recover_until`;
an unusable tree state fails with `InvalidTreeState`. -/
def from_treestate (ts : TreeState) (recover_until : Option Nat) :
    Except InitError AccountBirthday :=
  if ts.valid then Except.ok ⟨ts.height + 1, recover_until⟩
  else Except.error InitError.invalidTreeState

/-- Embeds `get_wallet_birthday` (`src/init.rs` lines 168-187): issue the
tree-state request at `birthday_height` minus one (saturating) and build the
checkpoint.  `tsResponse` is the remote service: `none` is a transport
failure at that height. -/
def get_wallet_birthday (tsResponse : Nat → Option TreeState)
    (birthday_height : Nat) (recover_until : Option Nat) :
    Except InitError AccountBirthday :=
  match tsResponse (treeStateRequestHeight birthday_height) with
  | none => Except.error InitError.network
  | some ts => from_treestate ts recover_until

/-- Termination of an `init` run: success, a recoverable error surfaced
as a non-zero exit, or a panic (`expect`). -/
inductive Outcome where
  | ok : Outcome
  | err (e : InitError) : Outcome
  | panicked (msg : String) : Outcome
deriving DecidableEq

/-- Embeds `src/init.rs` lines 74-112: if the age identity file exists it is
loaded (no write); otherwise a fresh identity is generated and its
serialization written to the path (`tokio::fs::File::create_new`). -/
def ensureIdentityFile (identityPath : Path) (contents : String) (fs : Fs) :
    Fs :=
  if (lookupFile fs identityPath).isSome then fs
  else { fs with files := fs.files ++ [(identityPath, contents)] }

/-- The environment of one `init` run: the behaviour of the external
collaborators (network, entropy, prompt) and the command-line options. -/
structure InitEnv where
  /-- Whether `server.connect(...)` succeeds. -/
  connectOk : Bool
  /-- `get_latest_block` response: the reported u64 height, or `none` on a
  transport failure. -/
  latestBlock : Option Nat
  /-- The `--identity` path. -/
  identityPath : Path
  /-- Serialization of a freshly generated age identity (timestamp and
  public-key comments plus the secret encoding). -/
  identityFileContents : String
  /-- The mnemonic prompt response. -/
  phrase : String
  /-- The external mnemonic library. -/
  lib : Bip39
  /-- `encrypt_mnemonic`: armored age encryption of the phrase; always
  UTF-8 by construction of the armor format, so its `expect` never fires. -/
  ageEncrypt : Mnemonic → String
  /-- The `--birthday` option. -/
  explicitBirthday : Option Nat
  /-- `get_tree_state` responses by requested height; `none` is a transport
  failure. -/
  treeStateResp : Nat → Option TreeState
  /-- The `--dir` wallet directory option. -/
  walletDir : Option Path
  /-- `Network::from(opts.network).name()`. -/
  networkName : String
  /-- Whether `init_dbs` / `create_account` succeed in the external
  engine. -/
  initDbsOk : Bool

/-- Embeds `InitOptions::run` (`src/init.rs` lines 54-166, identically
`Options::run` in `src/main.rs`): connect over Tor, fetch the chain tip
(panicking when the reported height exceeds `u32`), load or create the age
identity file, obtain the mnemonic and recover-until height from the prompt,
resolve the birthday checkpoint over the network, write the wallet config,
and provision the account.  Returns the final filesystem and the outcome. -/
def runInit (env : InitEnv) (fs : Fs) : Fs × Outcome :=
  if env.connectOk = false then (fs, Outcome.err InitError.network)
  else
    match env.latestBlock with
    | none => (fs, Outcome.err InitError.network)
    | some height =>
      if 2 ^ 32 ≤ height then
        (fs, Outcome.panicked "block heights must fit into u32")
      else
        let chain_tip := height
        let fs1 := ensureIdentityFile env.identityPath env.identityFileContents fs
        match mnemonicAndRecoverUntil env.lib env.phrase chain_tip with
        | Except.error e => (fs1, Outcome.err e)
        | Except.ok (mnemonic, recover_until) =>
          let birthday_height :=
            effectiveBirthdayHeight env.explicitBirthday chain_tip
          match get_wallet_birthday env.treeStateResp birthday_height
              recover_until with
          | Except.error e => (fs1, Outcome.err e)
          | Except.ok birthday =>
            match init_wallet_config env.walletDir
                (some (env.ageEncrypt mnemonic)) birthday.height
                env.networkName fs1 with
            | (fs2, Except.error _) =>
              (fs2, Outcome.err InitError.configAlreadyExists)
            | (fs2, Except.ok _) =>
              (fs2, if env.initDbsOk then Outcome.ok
                    else Outcome.err InitError.engine)

/-- Both network calls of an `init` run succeeded: the connection was
established, `get_latest_block` returned a height within `u32` range, and
`get_tree_state` at the height the run requests returned a usable tree
state. -/
def networkCallsSucceeded (env : InitEnv) : Prop :=
  env.connectOk = true ∧
  ∃ h, env.latestBlock = some h ∧ h < 2 ^ 32 ∧
    ∃ ts, env.treeStateResp (treeStateRequestHeight
        (effectiveBirthdayHeight env.explicitBirthday h)) = some ts ∧
      ts.valid = true

/-- A concrete mnemonic library used to instantiate witnesses. -/
def testBip39 : Bip39 where
  generate c := ⟨List.replicate c.toNat "abandon"⟩
  fromPhrase s :=
    if s = "alpha beta" then some ⟨["alpha", "beta"]⟩ else none
  generate_len c := by simp

/-- The empty filesystem. -/
def emptyFs : Fs := ⟨∅, []⟩

/-- A concrete healthy `init` environment used to instantiate witnesses. -/
def testEnv : InitEnv where
  connectOk := true
  latestBlock := some 500000
  identityPath := ["id.txt"]
  identityFileContents := "identity"
  phrase := ""
  lib := testBip39
  ageEncrypt := fun m => String.intercalate " " m.words
  explicitBirthday := none
  treeStateResp := fun _ => some ⟨499899, true⟩
  walletDir := some ["w"]
  networkName := "test"
  initDbsOk := true

/-- A filesystem that already holds a wallet config at `w/keys.toml`;
used to instantiate witnesses. -/
def testFsWithConfig : Fs := ⟨∅, [(["w", "keys.toml"], "old")]⟩

/-! ## Helper lemmas -/

/-- Appending an entry at a different key does not change a lookup. -/
theorem lookupAssoc_append_single_ne {κ ν : Type} [DecidableEq κ]
    {l : List (κ × ν)} {q k : κ} {c : ν} (h : k ≠ q) :
    lookupAssoc (l ++ [(q, c)]) k = lookupAssoc l k := by
  induction l with
  | nil =>
    simp only [List.nil_append, lookupAssoc, if_neg (fun hqk : q = k => h hqk.symm)]
  | cons x t ih => by_cases hx : x.1 = k <;> simp [lookupAssoc, hx, ih]

/-- `create_dir_all` leaves files untouched. -/
theorem lookupFile_create_dir_all (p : Path) (fs : Fs) (q : Path) :
    lookupFile (create_dir_all p fs) q = lookupFile fs q := rfl

/-- `create_new` never changes the set of directories. -/
theorem dirs_create_new (p : Path) (c : String) (fs : Fs) :
    (create_new p c fs).1.dirs = fs.dirs := by
  unfold create_new
  split <;> rfl

/-- Lookups away from the config path pass through `init_wallet_config`. -/
theorem lookupFile_init_wallet_config_ne (wallet_dir : Option Path)
    (mnemonic : Option String) (birthday : Nat) (networkName : String)
    (fs : Fs) (p : Path) (hp : p ≠ configPath wallet_dir) :
    lookupFile (init_wallet_config wallet_dir mnemonic birthday networkName fs).1 p =
      lookupFile fs p := by
  simp only [configPath] at hp
  unfold init_wallet_config create_new
  dsimp only
  split
  · rfl
  · show lookupAssoc (fs.files ++ [_]) p = _
    rw [lookupAssoc_append_single_ne hp]
    rfl

/-- The directories after `init_wallet_config`. -/
theorem dirs_init_wallet_config (wallet_dir : Option Path)
    (mnemonic : Option String) (birthday : Nat) (networkName : String)
    (fs : Fs) :
    (init_wallet_config wallet_dir mnemonic birthday networkName fs).1.dirs =
      fs.dirs ∪ (ancestors (wallet_dir.getD DEFAULT_WALLET_DIR)).toFinset := by
  unfold init_wallet_config
  rw [dirs_create_new]
  rfl

/-- Lookups away from the identity path pass through `ensureIdentityFile`. -/
theorem lookupFile_ensureIdentityFile_ne (ip : Path) (c : String) (fs : Fs)
    (p : Path) (hp : p ≠ ip) :
    lookupFile (ensureIdentityFile ip c fs) p = lookupFile fs p := by
  unfold ensureIdentityFile
  split
  · rfl
  · exact lookupAssoc_append_single_ne hp

/-- `ensureIdentityFile` never changes the set of directories. -/
theorem dirs_ensureIdentityFile (ip : Path) (c : String) (fs : Fs) :
    (ensureIdentityFile ip c fs).dirs = fs.dirs := by
  unfold ensureIdentityFile
  split <;> rfl

/-- Inversion of a successful `get_wallet_birthday`: the service responded
with a valid tree state at the requested height and the checkpoint carries
the given recover-until height. -/
theorem get_wallet_birthday_ok {resp : Nat → Option TreeState} {h : Nat}
    {ru : Option Nat} {b : AccountBirthday}
    (hok : get_wallet_birthday resp h ru = Except.ok b) :
    ∃ ts, resp (treeStateRequestHeight h) = some ts ∧ ts.valid = true ∧
      b = ⟨ts.height + 1, ru⟩ := by
  unfold get_wallet_birthday at hok
  cases hresp : resp (treeStateRequestHeight h) with
  | none => rw [hresp] at hok; cases hok
  | some ts =>
    rw [hresp] at hok
    unfold from_treestate at hok
    dsimp only at hok
    by_cases hv : ts.valid = true
    · rw [if_pos hv] at hok
      injection hok with hb
      exact ⟨ts, rfl, hv, hb.symm⟩
    · rw [if_neg hv] at hok
      cases hok

/-! ## Claims -/

/-- C1: the claim says a recovery-progress fraction of `0/0` renders a
distinct "not recovering" indicator and never a numeric percentage (never
NaN).  The code (`src/balance.rs` lines 118-134) instead always prints the
`Recovered:` percentage line when the fraction is present, computing the
percent by f64 division, so at `0/0` it prints `Recovered: NaN% = 0/0`;
its own comment flags this ("Seems like we shouldn't show this value
computed as NaN%").  This theorem evaluates the embedded rendering at the
failing input and exhibits the NaN percentage line. -/
theorem recovered_line_is_nan_at_zero_over_zero :
    renderRecovered (some (0, 0)) =
      some ⟨F64Class.nan, 0, 0⟩ := rfl

/-- C2 counterexample: the claim says a price is fetched only for supported
currencies and that requesting any other valid currency code never fails the
command.  In `ValuePrinter::with_exchange_rate` the USD/ZEC fetch happens
unconditionally and its failure is propagated by `?` before the currency is
examined, so requesting EUR while the fetch fails does fail the command. -/
theorem with_exchange_rate_eur_fetch_failure_fails :
    with_exchange_rate ⟨"EUR"⟩ FetchResult.err = Except.error () := rfl

/-- C2 (amended): the USD/ZEC rate fetch is attempted unconditionally; when
it succeeds, a non-USD currency degrades to asset-only display with a
warning logged and no error, USD yields a conversion at the fetched rate,
and a fetch failure fails the command for every currency. -/
theorem with_exchange_rate_spec :
    (∀ (c : Currency) (r : ℚ), c ≠ Currency.usd →
      with_exchange_rate c (FetchResult.ok r) =
        Except.ok (ValuePrinter.zecOnly, true)) ∧
    (∀ r : ℚ, with_exchange_rate Currency.usd (FetchResult.ok r) =
      Except.ok (ValuePrinter.withConversion Currency.usd r, false)) ∧
    (∀ c : Currency, with_exchange_rate c FetchResult.err =
      Except.error ()) := by
  refine ⟨fun c r hc => ?_, fun r => ?_, fun c => rfl⟩
  · simp [with_exchange_rate, hc]
  · simp [with_exchange_rate]

/-- C2 witness: concrete instantiation at EUR and rate 30. -/
theorem with_exchange_rate_spec_witness :
    (⟨"EUR"⟩ : Currency) ≠ Currency.usd ∧
    with_exchange_rate ⟨"EUR"⟩ (FetchResult.ok 30) =
      Except.ok (ValuePrinter.zecOnly, true) :=
  ⟨by decide, with_exchange_rate_spec.1 ⟨"EUR"⟩ 30 (by decide)⟩

/-- C5: the tree-state request of `get_wallet_birthday` targets
`birthday_height - 1` for every height `h ≥ 1` (genuine predecessor), and
height `0` unchanged under saturating subtraction — total, no underflow. -/
theorem tree_state_request_height_spec :
    (∀ h : Nat, 1 ≤ h → treeStateRequestHeight h + 1 = h) ∧
    treeStateRequestHeight 0 = 0 := by
  refine ⟨fun h hh => ?_, rfl⟩
  simp only [treeStateRequestHeight]
  omega

/-- C5 witness: heights 7 and 0. -/
theorem tree_state_request_height_spec_witness :
    1 ≤ 7 ∧ treeStateRequestHeight 7 + 1 = 7 :=
  ⟨by decide, tree_state_request_height_spec.1 7 (by decide)⟩

/-- C6: the effective birthday height equals the explicit user value when
given, and otherwise `chain_tip - 100` (saturating `Nat` subtraction; for
tips of at least 100 this is genuine subtraction, shown over `ℤ`). -/
theorem effective_birthday_spec :
    (∀ (b tip : Nat), effectiveBirthdayHeight (some b) tip = b) ∧
    (∀ tip : Nat, effectiveBirthdayHeight none tip = tip - 100) ∧
    (∀ tip : Nat, 100 ≤ tip →
      (effectiveBirthdayHeight none tip : ℤ) = (tip : ℤ) - 100) := by
  refine ⟨fun b tip => rfl, fun tip => rfl, fun tip htip => ?_⟩
  simp only [effectiveBirthdayHeight, Option.getD]
  omega

/-- C6 witness: explicit birthday 42, and default from tip 500000. -/
theorem effective_birthday_spec_witness :
    effectiveBirthdayHeight (some 42) 500000 = 42 ∧
    (100 ≤ 500000 ∧
      (effectiveBirthdayHeight none 500000 : ℤ) = (500000 : ℤ) - 100) :=
  ⟨effective_birthday_spec.1 42 500000,
   by decide, effective_birthday_spec.2.2 500000 (by decide)⟩

/-- C8: with a conversion in effect, the displayed fiat value of an asset
amount of `value` minor units is exactly the spec's formula
`round(rate * value / COIN, 2)` computed in exact (rational) arithmetic,
and without a conversion no fiat value is shown. -/
theorem format_fiat_spec (rate : ℚ) (value : Nat) (currency : Currency) :
    (ValuePrinter.withConversion currency rate).formatFiat value =
      some (specFiatAmount rate (value : ℚ) (COIN : ℚ)) ∧
    ValuePrinter.zecOnly.formatFiat value = none :=
  ⟨rfl, rfl⟩

/-- C3: account selection behaves as specified — an explicit identifier is
honoured when present and fails with `accountNotFound` when absent; with no
identifier, a sole account is selected, zero accounts fail with
`noAccounts`, and several fail with `ambiguousAccount`.  `select_account`
is a pure reader of the database, so no failure performs a side effect. -/
theorem select_account_spec {α : Type} (db : Db α) :
    (∀ (u : Uuid) (a : α), get_account db u = some a →
      select_account db (some u) = Except.ok a) ∧
    (∀ u : Uuid, get_account db u = none →
      select_account db (some u) =
        Except.error (SelectError.accountNotFound u)) ∧
    (db.accounts = [] →
      select_account db none = Except.error SelectError.noAccounts) ∧
    (∀ (id : Uuid) (a : α), db.accounts = [(id, a)] →
      select_account db none = Except.ok a) ∧
    (2 ≤ db.accounts.length →
      select_account db none = Except.error SelectError.ambiguousAccount) := by
  refine ⟨?_, ?_, ?_, ?_, ?_⟩
  · intro u a h
    simp [select_account, h]
  · intro u h
    simp [select_account, h]
  · intro h
    simp [select_account, get_account_ids, h]
  · intro id a h
    simp [select_account, get_account_ids, get_account, lookupAssoc, h]
  · intro h
    obtain ⟨l⟩ := db
    match l, h with
    | x :: y :: t, _ =>
      simp [select_account, get_account_ids]

/-- C3 witness: a one-account wallet, a missing identifier, an empty
wallet, and a two-account wallet. -/
theorem select_account_spec_witness :
    (get_account (⟨[(1, "alice")]⟩ : Db String) 1 = some "alice" ∧
      select_account (⟨[(1, "alice")]⟩ : Db String) (some 1) =
        Except.ok "alice") ∧
    (get_account (⟨[(1, "alice")]⟩ : Db String) 9 = none ∧
      select_account (⟨[(1, "alice")]⟩ : Db String) (some 9) =
        Except.error (SelectError.accountNotFound 9)) ∧
    ((⟨[(1, "alice")]⟩ : Db String).accounts = [(1, "alice")] ∧
      select_account (⟨[(1, "alice")]⟩ : Db String) none =
        Except.ok "alice") ∧
    ((⟨[]⟩ : Db String).accounts = [] ∧
      select_account (⟨[]⟩ : Db String) none =
        Except.error SelectError.noAccounts) ∧
    (2 ≤ (⟨[(1, "alice"), (2, "bob")]⟩ : Db String).accounts.length ∧
      select_account (⟨[(1, "alice"), (2, "bob")]⟩ : Db String) none =
        Except.error SelectError.ambiguousAccount) :=
  ⟨⟨by decide, (select_account_spec ⟨[(1, "alice")]⟩).1 1 "alice" (by decide)⟩,
   ⟨by decide, (select_account_spec ⟨[(1, "alice")]⟩).2.1 9 (by decide)⟩,
   ⟨rfl, (select_account_spec ⟨[(1, "alice")]⟩).2.2.2.1 1 "alice" rfl⟩,
   ⟨rfl, (select_account_spec ⟨[]⟩).2.2.1 rfl⟩,
   ⟨by decide, (select_account_spec ⟨[(1, "alice"), (2, "bob")]⟩).2.2.2.2
      (by decide)⟩⟩

/-- C4: re-running config creation against a directory whose config file
exists fails with `configAlreadyExists`, leaving every file — in particular
the pre-existing config and its contents — unchanged; and directory
creation is recursive (all ancestors come into existence) and idempotent. -/
theorem init_wallet_config_spec (wallet_dir : Option Path)
    (mnemonic : Option String) (birthday : Nat) (networkName : String)
    (fs : Fs) :
    (∀ c : String, lookupFile fs (configPath wallet_dir) = some c →
      (init_wallet_config wallet_dir mnemonic birthday networkName fs).2 =
          Except.error ConfigError.configAlreadyExists ∧
        (init_wallet_config wallet_dir mnemonic birthday networkName fs).1.files =
          fs.files ∧
        lookupFile
            (init_wallet_config wallet_dir mnemonic birthday networkName fs).1
            (configPath wallet_dir) = some c) ∧
    (∀ d ∈ ancestors (wallet_dir.getD DEFAULT_WALLET_DIR),
      d ∈ (init_wallet_config wallet_dir mnemonic birthday networkName fs).1.dirs) ∧
    (∀ (p : Path) (g : Fs),
      create_dir_all p (create_dir_all p g) = create_dir_all p g) := by
  refine ⟨?_, ?_, ?_⟩
  · intro c h
    have hsome :
        (lookupFile (create_dir_all (wallet_dir.getD DEFAULT_WALLET_DIR) fs)
          (wallet_dir.getD DEFAULT_WALLET_DIR ++ [KEYS_FILE])).isSome = true := by
      rw [lookupFile_create_dir_all]
      simp only [configPath] at h
      rw [h]
      rfl
    unfold init_wallet_config create_new
    dsimp only
    rw [if_pos hsome]
    exact ⟨rfl, rfl, h⟩
  · intro d hd
    rw [dirs_init_wallet_config]
    exact Finset.mem_union_right _ (List.mem_toFinset.mpr hd)
  · intro p g
    simp [create_dir_all, Finset.union_assoc]

/-- C4 witness: a second `init` against `w/keys.toml` holding `"old"`. -/
theorem init_wallet_config_spec_witness :
    (lookupFile testFsWithConfig (configPath (some ["w"])) = some "old" ∧
      (init_wallet_config (some ["w"]) none 5 "test" testFsWithConfig).2 =
          Except.error ConfigError.configAlreadyExists ∧
        (init_wallet_config (some ["w"]) none 5 "test" testFsWithConfig).1.files =
          testFsWithConfig.files ∧
        lookupFile
            (init_wallet_config (some ["w"]) none 5 "test" testFsWithConfig).1
            (configPath (some ["w"])) = some "old") ∧
    (["w"] ∈ ancestors ((some ["w"] : Option Path).getD DEFAULT_WALLET_DIR) ∧
      ["w"] ∈ (init_wallet_config (some ["w"]) none 5 "test"
        testFsWithConfig).1.dirs) :=
  ⟨⟨by decide,
    (init_wallet_config_spec (some ["w"]) none 5 "test" testFsWithConfig).1
      "old" (by decide)⟩,
   ⟨by decide,
    (init_wallet_config_spec (some ["w"]) none 5 "test" testFsWithConfig).2.1
      ["w"] (by decide)⟩⟩

/-- C7: an empty mnemonic prompt response yields the freshly generated
24-word mnemonic with no recover-until height; a non-empty response is
parsed, failing with `invalidMnemonic` on wordlist/checksum mismatch, and
on success the recover-until height is the chain tip passed in (the tip
observed at the start of the run), which the constructed checkpoint
carries unchanged. -/
theorem mnemonic_handling_spec (lib : Bip39) (chain_tip : Nat) :
    (mnemonicAndRecoverUntil lib "" chain_tip =
        Except.ok (lib.generate Count.words24, none) ∧
      (lib.generate Count.words24).words.length = 24) ∧
    (∀ phrase : String, phrase ≠ "" → lib.fromPhrase phrase = none →
      mnemonicAndRecoverUntil lib phrase chain_tip =
        Except.error InitError.invalidMnemonic) ∧
    (∀ (phrase : String) (m : Mnemonic), phrase ≠ "" →
      lib.fromPhrase phrase = some m →
      mnemonicAndRecoverUntil lib phrase chain_tip =
        Except.ok (m, some chain_tip)) ∧
    (∀ (ts : TreeState) (ru : Option Nat) (b : AccountBirthday),
      from_treestate ts ru = Except.ok b → b.recoverUntil = ru) := by
  refine ⟨⟨?_, lib.generate_len Count.words24⟩, ?_, ?_, ?_⟩
  · simp [mnemonicAndRecoverUntil]
  · intro phrase hne h
    simp [mnemonicAndRecoverUntil, hne, h]
  · intro phrase m hne h
    simp [mnemonicAndRecoverUntil, hne, h]
  · intro ts ru b h
    unfold from_treestate at h
    by_cases hv : ts.valid = true
    · rw [if_pos hv] at h
      injection h with hb
      rw [← hb]
    · rw [if_neg hv] at h
      cases h

/-- C7 witness: the empty prompt, an invalid phrase, the valid phrase
recognised by `testBip39` at tip 500000, and the checkpoint built from a
valid tree state. -/
theorem mnemonic_handling_spec_witness :
    (mnemonicAndRecoverUntil testBip39 "" 500000 =
        Except.ok (testBip39.generate Count.words24, none)) ∧
    ("bogus" ≠ "" ∧ testBip39.fromPhrase "bogus" = none ∧
      mnemonicAndRecoverUntil testBip39 "bogus" 500000 =
        Except.error InitError.invalidMnemonic) ∧
    ("alpha beta" ≠ "" ∧
      testBip39.fromPhrase "alpha beta" = some ⟨["alpha", "beta"]⟩ ∧
      mnemonicAndRecoverUntil testBip39 "alpha beta" 500000 =
        Except.ok (⟨["alpha", "beta"]⟩, some 500000)) ∧
    (from_treestate ⟨499899, true⟩ (some 500000) =
        Except.ok ⟨499900, some 500000⟩ ∧
      (⟨499900, some 500000⟩ : AccountBirthday).recoverUntil = some 500000)  :=
  ⟨(mnemonic_handling_spec testBip39 500000).1.1,
   ⟨by decide, by decide,
    (mnemonic_handling_spec testBip39 500000).2.1 "bogus" (by decide)
      (by decide)⟩,
   ⟨by decide, by decide,
    (mnemonic_handling_spec testBip39 500000).2.2.1 "alpha beta"
      ⟨["alpha", "beta"]⟩ (by decide) (by decide)⟩,
   ⟨rfl,
    (mnemonic_handling_spec testBip39 500000).2.2.2 ⟨499899, true⟩
      (some 500000) ⟨499900, some 500000⟩ rfl⟩⟩

/-- C9: in every `init` run the wallet config file comes into existence
only when both network calls (`get_latest_block` and `get_tree_state`)
succeeded; the run touches no file other than the identity file and the
config file; and when either network call fails the directories are
unchanged and no config file exists — at most the identity file was
written. -/
theorem config_write_requires_network (env : InitEnv) (fs : Fs)
    (hid : env.identityPath ≠ configPath env.walletDir)
    (h0 : lookupFile fs (configPath env.walletDir) = none) :
    ((lookupFile (runInit env fs).1 (configPath env.walletDir)).isSome = true →
      networkCallsSucceeded env) ∧
    (∀ p : Path, p ≠ env.identityPath → p ≠ configPath env.walletDir →
      lookupFile (runInit env fs).1 p = lookupFile fs p) ∧
    ((runInit env fs).1.dirs ≠ fs.dirs → networkCallsSucceeded env) := by
  unfold runInit
  by_cases hc : env.connectOk = false
  · rw [if_pos hc]
    refine ⟨fun hs => ?_, fun p hp hcp => rfl, fun hd => absurd rfl hd⟩
    rw [h0] at hs
    simp at hs
  rw [if_neg hc]
  have hctrue : env.connectOk = true := by
    revert hc
    cases env.connectOk <;> simp
  cases hlb : env.latestBlock with
  | none =>
    refine ⟨fun hs => ?_, fun p hp hcp => rfl, fun hd => absurd rfl hd⟩
    rw [h0] at hs
    simp at hs
  | some height =>
    dsimp only
    by_cases hbig : 2 ^ 32 ≤ height
    · rw [if_pos hbig]
      refine ⟨fun hs => ?_, fun p hp hcp => rfl, fun hd => absurd rfl hd⟩
      rw [h0] at hs
      simp at hs
    rw [if_neg hbig]
    have hfs1c :
        lookupFile (ensureIdentityFile env.identityPath
          env.identityFileContents fs) (configPath env.walletDir) = none := by
      rw [lookupFile_ensureIdentityFile_ne _ _ _ _ (Ne.symm hid)]
      exact h0
    have hfs1d :
        (ensureIdentityFile env.identityPath env.identityFileContents fs).dirs
          = fs.dirs := dirs_ensureIdentityFile _ _ _
    cases hm : mnemonicAndRecoverUntil env.lib env.phrase height with
    | error e =>
      dsimp only
      refine ⟨fun hs => ?_, fun p hp hcp => ?_, fun hd => ?_⟩
      · rw [hfs1c] at hs
        simp at hs
      · exact lookupFile_ensureIdentityFile_ne _ _ _ _ hp
      · rw [hfs1d] at hd
        exact absurd rfl hd
    | ok pair =>
      obtain ⟨mnemonic, recover_until⟩ := pair
      dsimp only
      cases hb : get_wallet_birthday env.treeStateResp
          (effectiveBirthdayHeight env.explicitBirthday height)
          recover_until with
      | error e =>
        dsimp only
        refine ⟨fun hs => ?_, fun p hp hcp => ?_, fun hd => ?_⟩
        · rw [hfs1c] at hs
          simp at hs
        · exact lookupFile_ensureIdentityFile_ne _ _ _ _ hp
        · rw [hfs1d] at hd
          exact absurd rfl hd
      | ok birthday =>
        dsimp only
        obtain ⟨ts, hts, htsv, -⟩ := get_wallet_birthday_ok hb
        have hnet : networkCallsSucceeded env :=
          ⟨hctrue, height, hlb, lt_of_not_le hbig, ts, hts, htsv⟩
        have hlook : ∀ p : Path, p ≠ env.identityPath →
            p ≠ configPath env.walletDir →
            lookupFile (init_wallet_config env.walletDir
              (some (env.ageEncrypt mnemonic)) birthday.height
              env.networkName (ensureIdentityFile env.identityPath
                env.identityFileContents fs)).1 p = lookupFile fs p := by
          intro p hp hcp
          have hcp' : p ≠ configPath env.walletDir := hcp
          rw [lookupFile_init_wallet_config_ne _ _ _ _ _ _ hcp']
          exact lookupFile_ensureIdentityFile_ne _ _ _ _ hp
        cases hw : init_wallet_config env.walletDir
            (some (env.ageEncrypt mnemonic)) birthday.height
            env.networkName (ensureIdentityFile env.identityPath
              env.identityFileContents fs) with
        | mk fs2 res =>
          cases res with
          | error e =>
            dsimp only
            refine ⟨fun _ => hnet, fun p hp hcp => ?_, fun _ => hnet⟩
            have := hlook p hp hcp
            rw [hw] at this
            exact this
          | ok u =>
            dsimp only
            refine ⟨fun _ => hnet, fun p hp hcp => ?_, fun _ => hnet⟩
            have := hlook p hp hcp
            rw [hw] at this
            exact this

/-- C9 witness: a healthy run against the empty filesystem; lookups away
from the identity and config paths are unchanged, and the network-success
package holds. -/
theorem config_write_requires_network_witness :
    testEnv.identityPath ≠ configPath testEnv.walletDir ∧
    lookupFile emptyFs (configPath testEnv.walletDir) = none ∧
    lookupFile (runInit testEnv emptyFs).1 ["elsewhere"] =
      lookupFile emptyFs ["elsewhere"] ∧
    ((lookupFile (runInit testEnv emptyFs).1
        (configPath testEnv.walletDir)).isSome = true →
      networkCallsSucceeded testEnv) :=
  ⟨by decide, by decide,
   (config_write_requires_network testEnv emptyFs (by decide)
      (by decide)).2.1 ["elsewhere"] (by decide) (by decide),
   (config_write_requires_network testEnv emptyFs (by decide)
      (by decide)).1⟩

/-- C10: with the connection up, a reported latest-block height that does
not fit in `u32` makes the run panic with the `expect` message (not a
recoverable error), while any in-range height never triggers that panic —
every other failure surfaces as a recoverable `err`. -/
theorem chain_tip_u32_spec (env : InitEnv) (fs : Fs) (h : Nat)
    (hc : env.connectOk = true) (hb : env.latestBlock = some h) :
    (2 ^ 32 ≤ h →
      (runInit env fs).2 = Outcome.panicked "block heights must fit into u32") ∧
    (h < 2 ^ 32 → ∀ msg, (runInit env fs).2 ≠ Outcome.panicked msg) := by
  unfold runInit
  rw [if_neg (by rw [hc]; simp), hb]
  dsimp only
  constructor
  · intro hbig
    rw [if_pos hbig]
  · intro hsmall msg
    rw [if_neg (not_le_of_lt hsmall)]
    cases hm : mnemonicAndRecoverUntil env.lib env.phrase h with
    | error e => simp
    | ok pair =>
      obtain ⟨mnemonic, recover_until⟩ := pair
      cases hbd : get_wallet_birthday env.treeStateResp
          (effectiveBirthdayHeight env.explicitBirthday h) recover_until with
      | error e => simp [hbd]
      | ok birthday =>
        cases hw : init_wallet_config env.walletDir
            (some (env.ageEncrypt mnemonic)) birthday.height
            env.networkName (ensureIdentityFile env.identityPath
              env.identityFileContents fs) with
        | mk fs2 res =>
          cases res with
          | error e => simp [hbd, hw]
          | ok u =>
            cases hdb : env.initDbsOk <;> simp [hbd, hw, hdb]

/-- C10 witness: tip `2^32` panics; tip 500000 does not. -/
theorem chain_tip_u32_spec_witness :
    ({ testEnv with latestBlock := some (2 ^ 32) } : InitEnv).connectOk = true ∧
    (2 : Nat) ^ 32 ≤ 2 ^ 32 ∧
    (runInit { testEnv with latestBlock := some (2 ^ 32) } emptyFs).2 =
      Outcome.panicked "block heights must fit into u32" ∧
    (500000 : Nat) < 2 ^ 32 ∧
    (runInit testEnv emptyFs).2 ≠ Outcome.panicked "boom" :=
  ⟨rfl, le_refl _,
   (chain_tip_u32_spec { testEnv with latestBlock := some (2 ^ 32) } emptyFs
      (2 ^ 32) rfl rfl).1 (le_refl _),
   by decide,
   (chain_tip_u32_spec testEnv emptyFs 500000 rfl rfl).2 (by decide) "boom"⟩

end Zecli
